import Mathlib

/-!
Shallow embedding of the musico-core piano-roll sequencer core
(src/components/EditorCanvas.tsx, with the shared `Note` type from
src/unnamed/part_000 and the `PITCH_MAP` / `DURATION_MAP` constants from
src/unnamed/part_001), together with theorems settling the spec claims.

Numbers: grid units and MIDI values are exact integers in the source, so they
are modelled as `Nat`/`Int`; tempo-derived seconds and pixel positions are
exact dyadic rationals in the source (60/120, divisions by 4), so they are
modelled as `ℚ`; only the equal-temperament frequency needs a real exponential
and is modelled in `ℝ`.
-/

/-- `PIXELS_PER_UNIT = 32` (EditorCanvas.tsx). -/
def PIXELS_PER_UNIT : ℚ := 32

/-- `TEMPO_BPM = 120` (EditorCanvas.tsx). -/
def TEMPO_BPM : ℚ := 120

/-- `SECONDS_PER_BEAT = 60 / TEMPO_BPM` (EditorCanvas.tsx). -/
def SECONDS_PER_BEAT : ℚ := 60 / TEMPO_BPM

/-- `QUARTER_DURATION = 4` (EditorCanvas.tsx). -/
def QUARTER_DURATION : ℚ := 4

/-- `PIXELS_PER_SECOND = (PIXELS_PER_UNIT * 16) / (SECONDS_PER_BEAT * 4)`
(EditorCanvas.tsx). -/
def PIXELS_PER_SECOND : ℚ := (PIXELS_PER_UNIT * 16) / (SECONDS_PER_BEAT * 4)

/-- `TOTAL_ROWS = 85` (EditorCanvas.tsx): rows 0..84 cover MIDI 108 down to 24. -/
def TOTAL_ROWS : ℕ := 85

/-- `START_MIDI = 108` (EditorCanvas.tsx): the top row (row 0) is C8. -/
def START_MIDI : ℕ := 108

/-- `PITCH_MAP` from src/unnamed/part_001: chromatic offsets of the twelve
pitch names; lookup of any other key is `undefined` in JS, modelled `none`. -/
def PITCH_MAP (s : String) : Option ℕ :=
  if s = "C" then some 0
  else if s = "C#" then some 1
  else if s = "D" then some 2
  else if s = "D#" then some 3
  else if s = "E" then some 4
  else if s = "F" then some 5
  else if s = "F#" then some 6
  else if s = "G" then some 7
  else if s = "G#" then some 8
  else if s = "A" then some 9
  else if s = "A#" then some 10
  else if s = "B" then some 11
  else none

/-- `DURATION_MAP` from src/unnamed/part_001: grid units (sixteenths) per
duration name; lookup of any other key is `undefined` in JS, modelled `none`. -/
def DURATION_MAP (s : String) : Option ℕ :=
  if s = "whole" then some 16
  else if s = "half" then some 8
  else if s = "quarter" then some 4
  else if s = "eighth" then some 2
  else none

/-- The chromatic note-name table local to `getPitchFromRow`
(EditorCanvas.tsx): C, C#, D, D#, E, F, F#, G, G#, A, A#, B. -/
def noteNames : List String :=
  ["C", "C#", "D", "D#", "E", "F"] ++ ["F#", "G", "G#", "A", "A#", "B"]

/-- `getPitchFromRow` (EditorCanvas.tsx lines 23-29):
`midiNote = START_MIDI - row`; name at `midiNote % 12`; octave
`floor(midiNote/12) - 1`; returns the concatenation. `Nat` subtraction and
division agree with the JS arithmetic for every row of the grid
(row ≤ 108, so `midiNote ≥ 0` and the octave is ≥ 1). -/
def getPitchFromRow (row : ℕ) : String :=
  let midiNote := START_MIDI - row
  let name := noteNames.getD (midiNote % 12) ""
  let octave := midiNote / 12 - 1
  name ++ toString octave

/-- Character class `[A-G]` with the regex `i` flag: A-G or a-g. -/
def isPitchLetter (c : Char) : Bool :=
  ('A' ≤ c && c ≤ 'G') || ('a' ≤ c && c ≤ 'g')

/-- Character class `[#b]` with the regex `i` flag: `#`, `b` or `B`. -/
def isAccidentalChar (c : Char) : Bool :=
  c = '#' || c = 'b' || c = 'B'

/-- Character class `[0-9]`. -/
def isDigitChar (c : Char) : Bool :=
  '0' ≤ c && c ≤ '9'

/-- One attempt of the regex `([A-G][#b]?)([0-9])/i` anchored at the head of
the list: greedy on the optional accidental, backtracking to the one-letter
name when the third character is not a digit. Returns the matched name
characters and the octave digit. -/
def matchPitchAt : List Char → Option (List Char × Char)
  | c₁ :: c₂ :: c₃ :: _ =>
    if isPitchLetter c₁ then
      if isAccidentalChar c₂ && isDigitChar c₃ then some ([c₁, c₂], c₃)
      else if isDigitChar c₂ then some ([c₁], c₂)
      else none
    else none
  | [c₁, c₂] =>
    if isPitchLetter c₁ && isDigitChar c₂ then some ([c₁], c₂) else none
  | _ => none

/-- `String.prototype.match` with a non-global regex: scan left to right and
return the first match of `([A-G][#b]?)([0-9])/i`, or `none` when the string
contains no match (JS returns `null`). -/
def findPitchMatch : List Char → Option (List Char × Char)
  | [] => none
  | c :: rest =>
    match matchPitchAt (c :: rest) with
    | some r => some r
    | none => findPitchMatch rest

/-- The `accidentalMap` local to `getRowFromPitch` (EditorCanvas.tsx):
flat spellings (after upper-casing) mapped to their sharp equivalents. -/
def accidentalMap (s : String) : Option String :=
  if s = "DB" then some "C#"
  else if s = "EB" then some "D#"
  else if s = "GB" then some "F#"
  else if s = "AB" then some "G#"
  else if s = "BB" then some "A#"
  else none

/-- JS `name.replace(s, "")` for the one-character pattern `#`: remove the
first occurrence of `#`. -/
def removeFirstHash : List Char → List Char
  | [] => []
  | c :: rest => if c = '#' then rest else c :: removeFirstHash rest

/-- `parseInt` of the single matched octave digit. -/
def digitVal (c : Char) : ℕ := c.toNat - 48

/-- `getRowFromPitch` (EditorCanvas.tsx lines 31-41). Returns `some 0` when
the regex finds no match (`if (!match) return 0`). When the normalized name
misses `PITCH_MAP` (only possible for names normalizing to `CB` or `FB`), the
JS code computes `undefined + n = NaN`; that NaN row is modelled as `none`.
Every grammar-standard pitch name yields `some row`. -/
def getRowFromPitch (pitch : String) : Option ℤ :=
  match findPitchMatch pitch.data with
  | none => some 0
  | some (nameChars, octaveChar) =>
    let name₀ : String := ⟨nameChars.map Char.toUpper⟩
    let octave := digitVal octaveChar
    let name : String := (accidentalMap name₀).getD name₀
    match PITCH_MAP ⟨removeFirstHash name.data⟩ with
    | none => none
    | some v =>
      let noteValue := v + (if name.data.contains '#' then 1 else 0)
      let midiNote := (octave + 1) * 12 + noteValue
      some ((START_MIDI : ℤ) - midiNote)

/-- Equal-temperament frequency of a MIDI note, `440 * 2^((midi - 69)/12)`,
as computed inside `getFrequencyFromPitch` (EditorCanvas.tsx lines 43-47). -/
noncomputable def pitchFreq (midiNote : ℤ) : ℝ :=
  440 * (2 : ℝ) ^ (((midiNote : ℝ) - 69) / 12)

/-- `getFrequencyFromPitch` (EditorCanvas.tsx lines 43-47):
`row = getRowFromPitch(pitch); midiNote = START_MIDI - row;
440 * 2^((midiNote-69)/12)`. A NaN row (see `getRowFromPitch`) propagates to
a NaN frequency, modelled by `Option.map`. -/
noncomputable def getFrequencyFromPitch (pitch : String) : Option ℝ :=
  (getRowFromPitch pitch).map (fun row => pitchFreq ((START_MIDI : ℤ) - row))

/-- The `Note` record from src/unnamed/part_000. The TS type annotates
`duration` with a four-name union, but `DURATION_MAP[note.duration] || 4`
is written to tolerate any string, so `duration` is modelled as `String`;
`time` is a nonnegative grid-unit integer (a grid column). -/
structure Note where
  pitch : String
  duration : String
  instrument : String
  time : ℕ
deriving DecidableEq, Repr

/-- The predicate of `notes.findIndex(n => n.pitch === pitchAtRow && n.time === timeAtCol)`
in `handleCanvasClick` (EditorCanvas.tsx lines 185-206). -/
def noteMatches (pitch : String) (time : ℕ) (n : Note) : Bool :=
  n.pitch == pitch && n.time == time

/-- `Array.prototype.findIndex`: index of the first match, else `none`
(JS returns -1). -/
def findNoteIndex (pitch : String) (time : ℕ) : List Note → Option ℕ
  | [] => none
  | n :: rest =>
    if noteMatches pitch time n then some 0
    else (findNoteIndex pitch time rest).map (· + 1)

/-- The toggle mutation of `handleCanvasClick` (EditorCanvas.tsx lines
185-206): if a note with this `(pitch, time)` exists, `splice` the first
match out; otherwise append `{ pitch, duration: 'quarter', instrument:
'Lead', time }`. -/
def toggle (notes : List Note) (pitch : String) (time : ℕ) : List Note :=
  match findNoteIndex pitch time notes with
  | some i => notes.eraseIdx i
  | none => notes ++ [{ pitch := pitch, duration := "quarter", instrument := "Lead", time := time }]

/-- `DURATION_MAP[d] || 4`, the lenient duration lookup used at every use
site of `DURATION_MAP` in EditorCanvas.tsx (all map values are truthy, so
JS `|| 4` is exactly `getD 4`). -/
def durationUnits (d : String) : ℕ :=
  (DURATION_MAP d).getD 4

/-- The `maxTime` accumulation in `play` (EditorCanvas.tsx lines 158-169):
starting from 0, take the maximum of `note.time + (DURATION_MAP[note.duration] || 4)`
over the note list. -/
def maxUnits (notes : List Note) : ℕ :=
  notes.foldl (fun acc n => max acc (n.time + durationUnits n.duration)) 0

/-- `totalDurationSeconds = maxTime * (SECONDS_PER_BEAT / 4)` in `play`
(EditorCanvas.tsx). -/
def totalDurationSeconds (notes : List Note) : ℚ :=
  (maxUnits notes : ℚ) * (SECONDS_PER_BEAT / 4)

/-- The TimeGrid units→seconds conversion (`secondsOf(units) = units *
secondsPerBeat/4`, spec §4.2), the conversion `play` applies to `maxTime`. -/
def secondsOf (units : ℕ) : ℚ :=
  (units : ℚ) * (SECONDS_PER_BEAT / 4)

/-- The early-return guard of `playNote` (EditorCanvas.tsx lines 116-119):
synthesis is skipped exactly when the computed frequency satisfies
`freq <= 0` (a NaN frequency compares false and is not skipped). -/
def skipsSynthesis (n : Note) : Prop :=
  ∃ f : ℝ, getFrequencyFromPitch n.pitch = some f ∧ f ≤ 0

/-- A live scheduled voice (an `OscillatorNode` held in `activeSources`);
`finished` records whether it has already stopped on its own, in which case
a redundant `stop()` call throws in the Web Audio API. -/
structure Voice where
  finished : Bool
deriving DecidableEq, Repr

/-- The observable playback state of `EditorCanvas`: the `isPlaying` and
`playheadPos` React state plus the `activeSources` ref. -/
structure PlayerState where
  isPlaying : Bool
  playheadPos : ℚ
  activeSources : List Voice
deriving DecidableEq, Repr

/-- `s.stop()` on a single voice: throws (models `InvalidStateError`) when
the voice has already finished, succeeds otherwise. -/
def stopSource (v : Voice) : Except String Unit :=
  if v.finished then Except.error "InvalidStateError" else Except.ok ()

/-- `try { s.stop() } catch(e) {}` (EditorCanvas.tsx line 148): any error
from stopping a voice is swallowed. -/
def tryStop (v : Voice) : Except String Unit :=
  match stopSource v with
  | Except.error _ => Except.ok ()
  | Except.ok u => Except.ok u

/-- `activeSources.current.forEach(s => { try { s.stop() } catch(e){} })`:
sequentially try-stop every live voice, propagating any uncaught error. -/
def forEachTryStop : List Voice → Except String Unit
  | [] => Except.ok ()
  | v :: rest => do
    tryStop v
    forEachTryStop rest

/-- The stop branch of `play` (EditorCanvas.tsx lines 145-153): cancel the
animation frame, try-stop every live voice, clear `activeSources`, set
`isPlaying` to false and reset the playhead to 0. An `Except.error` result
would model an uncaught exception escaping the handler. -/
def stopBranch (s : PlayerState) : Except String PlayerState := do
  forEachTryStop s.activeSources
  Except.ok { isPlaying := false, playheadPos := 0, activeSources := [] }

/-- One tick of the `animate` loop in `play` (EditorCanvas.tsx lines
171-182): if `elapsed >= totalDurationSeconds`, leave Playing (reset
`isPlaying` and the playhead); otherwise publish
`playheadPos = elapsed * PIXELS_PER_SECOND` and stay Playing. -/
def animateTick (total : ℚ) (elapsed : ℚ) (s : PlayerState) : PlayerState :=
  if elapsed ≥ total then { s with isPlaying := false, playheadPos := 0 }
  else { s with playheadPos := elapsed * PIXELS_PER_SECOND }

/-- The two-note sequence of the scheduling-bound property (spec §8). -/
def demoNotes : List Note :=
  [{ pitch := "C4", duration := "quarter", instrument := "Lead", time := 0 },
   { pitch := "E4", duration := "quarter", instrument := "Lead", time := 8 }]

theorem noteMatches_iff (p : String) (t : ℕ) (n : Note) :
    noteMatches p t n = true ↔ (n.pitch = p ∧ n.time = t) := by
  simp [noteMatches]

theorem findNoteIndex_eq_none (p : String) (t : ℕ) :
    ∀ l : List Note, (∀ m ∈ l, noteMatches p t m = false) → findNoteIndex p t l = none
  | [], _ => rfl
  | a :: l, h => by
    have ha : noteMatches p t a = false := h a (List.mem_cons_self a l)
    have hrest := findNoteIndex_eq_none p t l (fun m hm => h m (List.mem_cons_of_mem a hm))
    simp [findNoteIndex, ha, hrest]

theorem findNoteIndex_first (p : String) (t : ℕ) (n : Note) (hn : noteMatches p t n = true) :
    ∀ l₁ l₂ : List Note, (∀ m ∈ l₁, noteMatches p t m = false) →
      findNoteIndex p t (l₁ ++ n :: l₂) = some l₁.length
  | [], l₂, _ => by simp [findNoteIndex, hn]
  | a :: l₁, l₂, h => by
    have ha : noteMatches p t a = false := h a (List.mem_cons_self a l₁)
    have hrest := findNoteIndex_first p t n hn l₁ l₂ (fun m hm => h m (List.mem_cons_of_mem a hm))
    simp [findNoteIndex, ha, hrest]

theorem eraseIdx_append_cons (n : Note) :
    ∀ l₁ l₂ : List Note, (l₁ ++ n :: l₂).eraseIdx l₁.length = l₁ ++ l₂
  | [], _ => rfl
  | a :: l₁, l₂ => by
    simp [List.eraseIdx_cons_succ, eraseIdx_append_cons n l₁ l₂]

/-- C1: for every row in [0, 85), converting the row to a pitch name with
`getPitchFromRow` and parsing that name back with `getRowFromPitch` is the
identity. -/
theorem c1_row_pitch_round_trip :
    ∀ row : ℕ, row < TOTAL_ROWS → getRowFromPitch (getPitchFromRow row) = some (row : ℤ) := by
  decide

theorem c1_round_trip_witness :
    60 < TOTAL_ROWS ∧ getRowFromPitch (getPitchFromRow 60) = some (60 : ℤ) :=
  ⟨by decide, c1_row_pitch_round_trip 60 (by decide)⟩

/-- C2 (code-bug evidence): for the unparsable pitch `"Z9"`,
`getFrequencyFromPitch` returns the frequency of MIDI 108 (about 4186 Hz),
not the 0 Hz silence sentinel the spec requires, and the `freq <= 0` guard
in `playNote` therefore does not fire: an audible voice IS synthesized. -/
theorem c2_invalid_pitch_audible :
    getFrequencyFromPitch "Z9" = some (pitchFreq 108) ∧
    0 < pitchFreq 108 ∧
    ¬ skipsSynthesis { pitch := "Z9", duration := "quarter", instrument := "Lead", time := 0 } := by
  have hrow : getRowFromPitch "Z9" = some 0 := by decide
  have hfreq : getFrequencyFromPitch "Z9" = some (pitchFreq 108) := by
    simp [getFrequencyFromPitch, hrow, START_MIDI]
  have hpos : (0 : ℝ) < pitchFreq 108 := by
    unfold pitchFreq
    positivity
  refine ⟨hfreq, hpos, ?_⟩
  rintro ⟨f, hf, hle⟩
  have hf' : getFrequencyFromPitch "Z9" = some f := hf
  have : f = pitchFreq 108 := Option.some.inj (hf'.symm.trans hfreq)
  rw [this] at hle
  exact absurd hle (not_le.mpr hpos)

/-- C3 (counterexample): for the two-note demo sequence at 120 BPM the claim
`totalSeconds == secondsOf(8+4) == 3.0` is false: `secondsOf 12` is not 3. -/
theorem c3_counterexample :
    ¬ (totalDurationSeconds demoNotes = secondsOf (8 + 4) ∧ secondsOf (8 + 4) = 3) := by
  rintro ⟨-, h⟩
  norm_num [secondsOf, SECONDS_PER_BEAT, TEMPO_BPM] at h

/-- C3 (amended): for the two-note demo sequence at 120 BPM,
`totalSeconds == secondsOf(8+4) == 1.5` (seconds): `maxTime = 12` grid units
and one unit is 0.125 s. -/
theorem c3_total_seconds :
    totalDurationSeconds demoNotes = secondsOf (8 + 4) ∧ secondsOf (8 + 4) = 3 / 2 := by
  have hm : maxUnits demoNotes = 12 := by decide
  constructor
  · simp [totalDurationSeconds, secondsOf, hm]
  · norm_num [secondsOf, SECONDS_PER_BEAT, TEMPO_BPM]

/-- C4: for every input string in which the regex `([A-G][#b]?)([0-9])/i`
finds no match, `getRowFromPitch` returns row 0 (the top row, MIDI 108), so
`getFrequencyFromPitch` returns the frequency of C8, which is strictly
positive. -/
theorem c4_no_match_row_zero (s : String) (h : findPitchMatch s.data = none) :
    getRowFromPitch s = some 0 ∧
    getFrequencyFromPitch s = some (pitchFreq 108) ∧
    0 < pitchFreq 108 := by
  have hrow : getRowFromPitch s = some 0 := by
    simp [getRowFromPitch, h]
  refine ⟨hrow, ?_, ?_⟩
  · simp [getFrequencyFromPitch, hrow, START_MIDI]
  · unfold pitchFreq
    positivity

theorem c4_witness :
    findPitchMatch ("Z9" : String).data = none ∧
    (getRowFromPitch "Z9" = some 0 ∧
     getFrequencyFromPitch "Z9" = some (pitchFreq 108) ∧
     0 < pitchFreq 108) :=
  ⟨by decide, c4_no_match_row_zero "Z9" (by decide)⟩

/-- C5: for every octave digit, each flat spelling parses to the same row as
its sharp equivalent (Db→C#, Eb→D#, Gb→F#, Ab→G#, Bb→A#); in particular
`getRowFromPitch "Db4" = getRowFromPitch "C#4"`. -/
theorem c5_flat_normalization :
    ∀ d : ℕ, d < 10 →
      (getRowFromPitch (String.push "Db" (Char.ofNat (48 + d))) =
         getRowFromPitch (String.push "C#" (Char.ofNat (48 + d))) ∧
       getRowFromPitch (String.push "Eb" (Char.ofNat (48 + d))) =
         getRowFromPitch (String.push "D#" (Char.ofNat (48 + d))) ∧
       getRowFromPitch (String.push "Gb" (Char.ofNat (48 + d))) =
         getRowFromPitch (String.push "F#" (Char.ofNat (48 + d))) ∧
       getRowFromPitch (String.push "Ab" (Char.ofNat (48 + d))) =
         getRowFromPitch (String.push "G#" (Char.ofNat (48 + d))) ∧
       getRowFromPitch (String.push "Bb" (Char.ofNat (48 + d))) =
         getRowFromPitch (String.push "A#" (Char.ofNat (48 + d)))) := by
  decide

theorem c5_witness : (4 : ℕ) < 10 ∧ getRowFromPitch "Db4" = getRowFromPitch "C#4" := by
  refine ⟨by decide, ?_⟩
  have h := (c5_flat_normalization 4 (by decide)).1
  have e₁ : String.push "Db" (Char.ofNat (48 + 4)) = "Db4" := by decide
  have e₂ : String.push "C#" (Char.ofNat (48 + 4)) = "C#4" := by decide
  rw [e₁, e₂] at h
  exact h

/-- C6: for every note list and every `(pitch, time)` pair, if a note with
exactly that pitch and time exists then `toggle` removes the first such match
(duration and instrument ignored), leaving every other note in place and in
order; otherwise it appends a new note with duration `quarter` and the
default instrument label `Lead`. -/
theorem c6_toggle_spec (notes : List Note) (p : String) (t : ℕ) :
    (∀ l₁ n l₂, notes = l₁ ++ n :: l₂ →
        (∀ m ∈ l₁, ¬ (m.pitch = p ∧ m.time = t)) →
        n.pitch = p → n.time = t →
        toggle notes p t = l₁ ++ l₂) ∧
    ((∀ n ∈ notes, ¬ (n.pitch = p ∧ n.time = t)) →
        toggle notes p t =
          notes ++ [{ pitch := p, duration := "quarter", instrument := "Lead", time := t }]) := by
  constructor
  · intro l₁ n l₂ hdecomp hl₁ hp ht
    subst hdecomp
    have hn : noteMatches p t n = true := (noteMatches_iff p t n).mpr ⟨hp, ht⟩
    have hl₁' : ∀ m ∈ l₁, noteMatches p t m = false := by
      intro m hm
      cases hval : noteMatches p t m with
      | false => rfl
      | true => exact absurd ((noteMatches_iff p t m).mp hval) (hl₁ m hm)
    simp [toggle, findNoteIndex_first p t n hn l₁ l₂ hl₁', eraseIdx_append_cons]
  · intro hnone
    have h' : ∀ m ∈ notes, noteMatches p t m = false := by
      intro m hm
      cases hval : noteMatches p t m with
      | false => rfl
      | true => exact absurd ((noteMatches_iff p t m).mp hval) (hnone m hm)
    simp [toggle, findNoteIndex_eq_none p t notes h']

theorem c6_witness :
    toggle [{ pitch := "C4", duration := "quarter", instrument := "Lead", time := 0 }] "C4" 0 = [] := by
  have h := (c6_toggle_spec
      [{ pitch := "C4", duration := "quarter", instrument := "Lead", time := 0 }] "C4" 0).1
    [] { pitch := "C4", duration := "quarter", instrument := "Lead", time := 0 } []
    rfl (by intro m hm; cases hm) rfl rfl
  simpa using h

/-- C7: starting from the empty note list, toggling `("C4", 0)` twice yields
the empty list again. -/
theorem c7_toggle_twice_empty : toggle (toggle [] "C4" 0) "C4" 0 = [] := by
  decide

theorem forEachTryStop_ok : ∀ vs : List Voice, forEachTryStop vs = Except.ok ()
  | [] => rfl
  | v :: rest => by
    have hv : tryStop v = Except.ok () := by
      cases hf : v.finished <;> simp [tryStop, stopSource, hf]
    simp [forEachTryStop, hv, forEachTryStop_ok rest, Bind.bind, Except.bind]

/-- C9: the stop branch never raises — on any state, including one whose
voices have already finished (their stop errors are swallowed by the
try/catch) and one with no live voices at all — and afterwards the
live-voice set is empty, `isPlaying` is false, and the playhead is 0. -/
theorem c9_stop_safe (s : PlayerState) :
    stopBranch s = Except.ok { isPlaying := false, playheadPos := 0, activeSources := [] } := by
  simp [stopBranch, forEachTryStop_ok s.activeSources, Bind.bind, Except.bind]

/-- C10: with an empty note list, `totalDurationSeconds` is 0 and the very
first animation tick (any nonnegative elapsed time) transitions from Playing
back to Idle with the playhead at 0. -/
theorem c10_empty_playback (elapsed : ℚ) (h : 0 ≤ elapsed) (s : PlayerState) :
    totalDurationSeconds [] = 0 ∧
    animateTick (totalDurationSeconds []) elapsed s = { s with isPlaying := false, playheadPos := 0 } := by
  have h0 : totalDurationSeconds [] = 0 := by
    simp [totalDurationSeconds, maxUnits]
  refine ⟨h0, ?_⟩
  rw [h0]
  simp [animateTick, h]

theorem c10_witness :
    (0 : ℚ) ≤ 0 ∧
    (totalDurationSeconds [] = 0 ∧
     animateTick (totalDurationSeconds []) 0 { isPlaying := true, playheadPos := 7, activeSources := [] } =
       { isPlaying := false, playheadPos := 0, activeSources := ([] : List Voice) }) :=
  ⟨le_refl 0, c10_empty_playback 0 (le_refl 0) { isPlaying := true, playheadPos := 7, activeSources := [] }⟩

/-- C8: `durationUnits` maps whole to 16, half to 8, quarter to 4 and eighth
to 2, and every duration name outside these four defaults to 4 (quarter)
rather than failing. -/
theorem c8_duration_table :
    durationUnits "whole" = 16 ∧ durationUnits "half" = 8 ∧
    durationUnits "quarter" = 4 ∧ durationUnits "eighth" = 2 ∧
    ∀ d : String, d ≠ "whole" → d ≠ "half" → d ≠ "quarter" → d ≠ "eighth" →
      durationUnits d = 4 := by
  refine ⟨by decide, by decide, by decide, by decide, ?_⟩
  intro d h1 h2 h3 h4
  simp [durationUnits, DURATION_MAP, h1, h2, h3, h4]

theorem c8_witness :
    ("bogus" : String) ≠ "whole" ∧ ("bogus" : String) ≠ "half" ∧
    ("bogus" : String) ≠ "quarter" ∧ ("bogus" : String) ≠ "eighth" ∧
    durationUnits "bogus" = 4 :=
  ⟨by decide, by decide, by decide, by decide,
   c8_duration_table.2.2.2.2 "bogus" (by decide) (by decide) (by decide) (by decide)⟩
